import Mathlib

/-!
Shallow embedding of the gin-demo user service core:
the cache-aside read path (`logic/user_query.go`), the write path with cache
invalidation (`logic/user_write.go`), the cache-key constants
(`logic/constants.go`), the entity model (`model/user.go`) and the tracing
decorator (`pkg/tracing.go`).

Modelling conventions:
* `context.Context` is modelled as `Ctx`: a trace identifier, a cancellation
  flag (whether the request-scoped lifetime is cancelled/cancellable) and the
  stack of span names pushed by `Tracer.Start`.
* Machine integers: `uint` identifiers become `Nat`, `int` fields become `Int`
  (no arithmetic near overflow occurs in the modelled code).
* `time.Time` instants and `time.Duration` are abstracted as nanosecond
  counts (`Nat`); Go's RFC3339 JSON rendering of an instant is a bijection on
  wall-clock instants, so the JSON form of an instant is modelled as the
  numeric instant itself.
* The marshalled cache payload is modelled at the level of the JSON value
  tree (`Json`), i.e. up to the textual layer of `encoding/json`.
* The Redis and GORM collaborators are oracles passed as function arguments
  (their outcomes are free), while the mutating commands the logic issues
  (`Set`, `Del`, `Create`, `Updates`) are recorded in an `Effect` list in
  program order, each with the context value the code handed to the client.
-/

/-- Go error values relevant to the modelled code paths. -/
inductive GoErr where
  | recordNotFound
  | redisNil
  | validationEmpty
  | emailExists (email : String)
  | idRequired
  | other (msg : String)
deriving DecidableEq, Repr

/-- The message of an error, as `err.Error()` would render it. -/
def errString : GoErr → String
  | .recordNotFound => "record not found"
  | .redisNil => "redis: nil"
  | .validationEmpty => "用户姓名和邮箱不能为空"
  | .emailExists email => "邮箱 " ++ email ++ " 已存在"
  | .idRequired => "用户ID不能为空"
  | .other m => m

/-- Model of `context.Context`: trace identity, request-lifetime cancellation
flag, and the span names pushed onto it by the tracer. -/
structure Ctx where
  traceId : Nat
  cancelled : Bool
  spanStack : List String
deriving DecidableEq, Repr

/-- Model of `gorm.DeletedAt` (a nullable time): an instant plus a validity
flag; the zero value is `(0, false)`. -/
structure DeletedAt where
  time : Nat
  valid : Bool
deriving DecidableEq, Repr

/-- Model of `model.User` (model/user.go): ID, timestamps, soft-delete
marker, name, email, age, status. -/
structure User where
  id : Nat
  createdAt : Nat
  updatedAt : Nat
  deletedAt : DeletedAt
  name : String
  email : String
  age : Int
  status : Int
deriving DecidableEq, Repr

/-- JSON value tree: the image of `encoding/json` marshalling relevant to
`model.User`. -/
inductive Json where
  | null
  | str (s : String)
  | num (n : Int)
  | obj (fields : List (String × Json))

/-- Field lookup in a JSON object by key. -/
def jLookup : List (String × Json) → String → Option Json
  | [], _ => none
  | (k, v) :: rest, key => if k = key then some v else jLookup rest key

/-- Unmarshal a `uint`-typed field: a missing key leaves the zero value, a
negative number is a type error, any non-number is a type error. -/
def decodeUInt : Option Json → Option Nat
  | none => some 0
  | some (Json.num n) => if 0 ≤ n then some n.toNat else none
  | some _ => none

/-- Unmarshal an `int`-typed field. -/
def decodeInt : Option Json → Option Int
  | none => some 0
  | some (Json.num n) => some n
  | some _ => none

/-- Unmarshal a `string`-typed field. -/
def decodeStr : Option Json → Option String
  | none => some ""
  | some (Json.str s) => some s
  | some _ => none

/-- Unmarshal a `gorm.DeletedAt` field: JSON null (or a missing key) leaves
the zero value with `valid = false`; an instant sets `valid = true`. -/
def decodeDeletedAt : Option Json → Option DeletedAt
  | none => some (DeletedAt.mk 0 false)
  | some Json.null => some (DeletedAt.mk 0 false)
  | some (Json.num n) => if 0 ≤ n then some (DeletedAt.mk n.toNat true) else none
  | some _ => none

/-- Model of `json.Marshal` on a `model.User`, per the json tags in
model/user.go. -/
def encodeUser (u : User) : Json :=
  Json.obj
    [("id", Json.num (u.id : Int)),
     ("created_at", Json.num (u.createdAt : Int)),
     ("updated_at", Json.num (u.updatedAt : Int)),
     ("deleted_at", if u.deletedAt.valid then Json.num (u.deletedAt.time : Int) else Json.null),
     ("name", Json.str u.name),
     ("email", Json.str u.email),
     ("age", Json.num u.age),
     ("status", Json.num u.status)]

/-- Model of `json.Unmarshal` into a fresh `model.User`, per the json tags in
model/user.go: field-wise decode by tag key, zero value for missing keys,
failure on type mismatch. -/
def decodeUser : Json → Option User
  | Json.obj fields => do
      let uid ← decodeUInt (jLookup fields "id")
      let created ← decodeUInt (jLookup fields "created_at")
      let updated ← decodeUInt (jLookup fields "updated_at")
      let deleted ← decodeDeletedAt (jLookup fields "deleted_at")
      let nm ← decodeStr (jLookup fields "name")
      let em ← decodeStr (jLookup fields "email")
      let ag ← decodeInt (jLookup fields "age")
      let st ← decodeInt (jLookup fields "status")
      some (User.mk uid created updated deleted nm em ag st)
  | _ => none

/-- Decimal digit character, as `%d` rendering uses: `'0' + d`. -/
def digitChr (d : Nat) : Char := Char.ofNat (48 + d)

/-- Inverse of `digitChr` on decimal digits. -/
def chrDigit (c : Char) : Nat := c.toNat - 48

/-- Decimal rendering of a natural number as a character list, most
significant digit first, as Go's `fmt` verb `%d` renders a `uint`. -/
def natDecimal (n : Nat) : List Char :=
  if n = 0 then [Char.ofNat 48] else ((Nat.digits 10 n).map digitChr).reverse

/-- The format constant `logic.UserCacheKey` from logic/constants.go. -/
def UserCacheKey : String := "user:%d"

/-- The TTL constant `logic.UserCacheTTL` (30 * time.Minute) in nanoseconds. -/
def UserCacheTTL : Nat := 30 * 60 * 1000 * 1000 * 1000

/-- Substitute the first `%d` verb in a character list by the given digits. -/
def substPercentD (digits : List Char) : List Char → List Char
  | [] => []
  | '%' :: 'd' :: rest => digits ++ rest
  | c :: rest => c :: substPercentD digits rest

/-- Model of `fmt.Sprintf` for a format string holding a single `%d` verb
applied to a non-negative integer. -/
def sprintfD (f : String) (n : Nat) : String :=
  String.mk (substPercentD (natDecimal n) f.data)

/-- The cache key derivation `fmt.Sprintf(UserCacheKey, id)` used by
GetUserByID, CreateUser and UpdateUser. -/
def userCacheKey (uid : Nat) : String := sprintfD UserCacheKey uid

/-- Mutating commands issued to the collaborators, each recorded with the
context value the code handed to the client. -/
inductive Effect where
  | redisSet (ctx : Ctx) (key : String) (value : Json) (ttl : Nat)
  | redisDel (ctx : Ctx) (key : String)
  | dbCreate (ctx : Ctx) (u : User)
  | dbUpdates (ctx : Ctx) (u : User)

/-- Outcome of `RedisClient.Get(ctx, key).Result()`: a payload, or an error
(where `GoErr.redisNil` is the distinguished not-found signal `redis.Nil`). -/
inductive CacheGetResult where
  | ok (payload : Json)
  | gerr (e : GoErr)

/-- Outcome of `DB.First(user, id)`: the row, or an error (where
`GoErr.recordNotFound` is `gorm.ErrRecordNotFound`). -/
inductive DbResult where
  | found (u : User)
  | dbErr (e : GoErr)

/-- Result of `logic.GetUserByID`: `(*model.User, error)`. -/
inductive GetRes where
  | ok (u : User)
  | err (e : GoErr)
deriving DecidableEq, Repr

/-- Model of `logic.GetUserByID` (logic/user_query.go): try the cache first;
on a decodable hit return it; on any cache error (redis.Nil or not) or a
payload that fails to unmarshal, fall through to the database; on a database
error return it; otherwise return the row and asynchronously issue
`RedisClient.Set(ctx, cacheKey, marshalled, UserCacheTTL)` — the goroutine
captures the literal `ctx` of the request. The collaborators are oracles;
the returned list records the mutating commands issued. -/
def GetUserByID (redisGet : Ctx → String → CacheGetResult)
    (dbFirst : Ctx → Nat → DbResult) (ctx : Ctx) (uid : Nat) :
    GetRes × List Effect :=
  let cacheKey := userCacheKey uid
  let fromDb : GetRes × List Effect :=
    match dbFirst ctx uid with
    | .dbErr e => (.err e, [])
    | .found u => (.ok u, [Effect.redisSet ctx cacheKey (encodeUser u) UserCacheTTL])
  match redisGet ctx cacheKey with
  | .ok payload =>
      match decodeUser payload with
      | some u => (.ok u, [])
      | none => fromDb
  | .gerr _ => fromDb

/-- Model of `logic.CreateUser` (logic/user_write.go): reject an empty name
or email; reject when a row with the same email is found (`err == nil` on the
email lookup); otherwise issue the insert; on insert success issue
`RedisClient.Del(ctx, cacheKey)` for the stored row's ID, discarding the
deletion outcome, and return nil. `dbCreate` returns the stored row (with the
backfilled primary key) or an error. -/
def CreateUser (firstByEmail : Ctx → String → Option User)
    (dbCreate : Ctx → User → Except GoErr User)
    (redisDel : Ctx → String → Option GoErr)
    (ctx : Ctx) (user : User) : Option GoErr × List Effect :=
  if user.name = "" ∨ user.email = "" then (some GoErr.validationEmpty, [])
  else
    match firstByEmail ctx user.email with
    | some _ => (some (GoErr.emailExists user.email), [])
    | none =>
        match dbCreate ctx user with
        | .error e => (some e, [Effect.dbCreate ctx user])
        | .ok stored =>
            let cacheKey := userCacheKey stored.id
            let _ := redisDel ctx cacheKey
            (none, [Effect.dbCreate ctx user, Effect.redisDel ctx cacheKey])

/-- Model of `logic.UpdateUser` (logic/user_write.go): reject a zero ID;
otherwise issue the column-limited update; on success issue
`RedisClient.Del(ctx, cacheKey)`, discarding the deletion outcome, and
return nil. -/
def UpdateUser (dbUpdates : Ctx → User → Option GoErr)
    (redisDel : Ctx → String → Option GoErr)
    (ctx : Ctx) (user : User) : Option GoErr × List Effect :=
  if user.id = 0 then (some GoErr.idRequired, [])
  else
    match dbUpdates ctx user with
    | some e => (some e, [Effect.dbUpdates ctx user])
    | none =>
        let cacheKey := userCacheKey user.id
        let _ := redisDel ctx cacheKey
        (none, [Effect.dbUpdates ctx user, Effect.redisDel ctx (userCacheKey user.id)])

/-- Column semantics of the update statement in UpdateUser:
`Model(&User{}).Select("name", "email", "age", "status", "updated_at")`
writes exactly those five columns of the stored row; `updated_at` is stamped
by the ORM with the current time. -/
def applyUserUpdate (now : Nat) (stored incoming : User) : User :=
  User.mk stored.id stored.createdAt now stored.deletedAt
    incoming.name incoming.email incoming.age incoming.status

/-- Row-set semantics of the update statement: rows matching
`Where("id = ?", user.ID)` and not soft-deleted (GORM's implicit
`deleted_at IS NULL` scope) receive `applyUserUpdate`; all other rows are
untouched. -/
def dbApplyUpdates (now : Nat) (db : List User) (incoming : User) : List User :=
  db.map fun r =>
    if r.id = incoming.id ∧ r.deletedAt.valid = false then applyUserUpdate now r incoming else r

/-- `logic.UpdateUser` run against a concrete table state: the update oracle
is instantiated with the column/row semantics above. Returns
`(error, new table state, issued commands)`. -/
def UpdateUserDb (now : Nat) (ctx : Ctx) (db : List User) (user : User) :
    Option GoErr × List User × List Effect :=
  if user.id = 0 then (some GoErr.idRequired, db, [])
  else
    (none, dbApplyUpdates now db user,
      [Effect.dbUpdates ctx user, Effect.redisDel ctx (userCacheKey user.id)])

/-- Model of `attribute.KeyValue`. -/
structure KeyValue where
  key : String
  value : String
deriving DecidableEq, Repr

/-- Span lifecycle and annotation events emitted through the tracer, in
program order. -/
inductive SpanEvent where
  | start (name : String)
  | setAttributes (name : String) (attrs : List KeyValue)
  | recordError (name : String) (e : GoErr)
  | setStatusError (name : String) (description : String)
  | stop (name : String)
deriving DecidableEq, Repr

/-- Model of `Tracer.Start(ctx, operationName)`: the derived child context
carries the same trace identity and lifetime with the new span pushed. -/
def startCtx (ctx : Ctx) (operationName : String) : Ctx :=
  Ctx.mk ctx.traceId ctx.cancelled (operationName :: ctx.spanStack)

/-- Outcome of a unary fallible Go function: a result, an error, or a panic
unwinding through the caller. -/
inductive Outcome (R : Type) where
  | ok (r : R)
  | fail (e : GoErr)
  | panicked (msg : String)
deriving DecidableEq, Repr

/-- Model of `pkg.TraceServiceFunc` (pkg/tracing.go): start a span (deriving
a child context), optionally evaluate the attribute function and attach its
attributes when non-empty, run the wrapped function on the derived context
and the original argument, record and mark a returned error on the span, and
end the span on every exit path (the deferred `span.End()` also runs while a
panic unwinds). Returns the wrapped function's outcome and the span events
in order. -/
def TraceServiceFunc {T R : Type} (operationName : String)
    (fn : Ctx → T → Outcome R)
    (attrFunc : Option (Ctx → T → List KeyValue)) :
    Ctx → T → Outcome R × List SpanEvent :=
  fun ctx arg =>
    let ctx2 := startCtx ctx operationName
    let pre : List SpanEvent :=
      SpanEvent.start operationName ::
        (match attrFunc with
         | none => []
         | some g =>
             match g ctx2 arg with
             | [] => []
             | attrs => [SpanEvent.setAttributes operationName attrs])
    match fn ctx2 arg with
    | .ok r => (.ok r, pre ++ [SpanEvent.stop operationName])
    | .fail e =>
        (.fail e,
          pre ++ [SpanEvent.recordError operationName e,
                  SpanEvent.setStatusError operationName (errString e),
                  SpanEvent.stop operationName])
    | .panicked m => (.panicked m, pre ++ [SpanEvent.stop operationName])

/-- Recognizer for span-start events. -/
def isSpanStart : SpanEvent → Bool
  | .start _ => true
  | _ => false

/-- Recognizer for span-end events. -/
def isSpanStop : SpanEvent → Bool
  | .stop _ => true
  | _ => false

/-- Left inverse of the key derivation: strip the 5-character prefix and read
the remaining decimal digits back. -/
def keyToId (s : String) : Nat :=
  Nat.ofDigits 10 (((s.data.drop 5).map chrDigit).reverse)

/-- Well-formedness of entities producible by the backing store: a row whose
soft-delete column is NULL scans to the zero instant with `valid = false`
(gorm.DeletedAt's zero value), so a cleared marker carries the zero instant. -/
def storeReachable (u : User) : Prop :=
  u.deletedAt.valid = false → u.deletedAt.time = 0

/-- A cache lookup outcome that yields no entity: any error (redis.Nil or
not), or a payload that fails to unmarshal. -/
def cacheNoEntity : CacheGetResult → Prop
  | .ok payload => decodeUser payload = none
  | .gerr _ => True

/-- A concrete request context whose request-scoped lifetime is cancelled. -/
def reqCtx : Ctx := Ctx.mk 7 true []

/-- A concrete entity as the backing store would return it. -/
def demoUser : User := User.mk 1 100 200 (DeletedAt.mk 0 false) "A" "a@x.com" 30 1

/-- A database oracle that finds `demoUser` for every ID. -/
def demoDbFound : Ctx → Nat → DbResult := fun _ _ => DbResult.found demoUser

/-- A database oracle that reports record-not-found for every ID. -/
def demoDbNotFound : Ctx → Nat → DbResult := fun _ _ => DbResult.dbErr GoErr.recordNotFound

/-- A cache oracle that always misses with the distinguished redis.Nil. -/
def demoCacheNil : Ctx → String → CacheGetResult :=
  fun _ _ => CacheGetResult.gerr GoErr.redisNil

/-- A cache oracle that always fails with a non-miss error. -/
def demoCacheBoom : Ctx → String → CacheGetResult :=
  fun _ _ => CacheGetResult.gerr (GoErr.other "connection refused")

/-- A cache deletion oracle that always fails. -/
def demoDelFail : Ctx → String → Option GoErr :=
  fun _ _ => some (GoErr.other "redis down")

/-- An email lookup oracle that finds no existing row. -/
def demoFirstByEmailNone : Ctx → String → Option User := fun _ _ => none

/-- The stored row an insert returns, primary key backfilled. -/
def demoStored : User := User.mk 5 111 111 (DeletedAt.mk 0 false) "B" "b@x.com" 20 1

/-- A fresh entity before insertion. -/
def demoNewUser : User := User.mk 0 0 0 (DeletedAt.mk 0 false) "B" "b@x.com" 20 1

/-- An insert oracle that succeeds, returning `demoStored`. -/
def demoDbCreateOk : Ctx → User → Except GoErr User := fun _ _ => Except.ok demoStored

/-- An update oracle that succeeds. -/
def demoDbUpdatesOk : Ctx → User → Option GoErr := fun _ _ => none

/-- An entity carrying changed mutable fields for an update. -/
def demoUpdUser : User := User.mk 5 0 0 (DeletedAt.mk 0 false) "C" "c@x.com" 21 1

/-- An entity with an empty name, rejected by CreateUser validation. -/
def demoNoName : User := User.mk 0 0 0 (DeletedAt.mk 0 false) "" "x@x.com" 20 1

theorem chrDigit_digitChr : ∀ d : Nat, d < 10 → chrDigit (digitChr d) = d := by decide

/-- Reading the rendered decimal digits back in base 10 recovers the number:
`natDecimal` is a faithful decimal rendering. -/
theorem natDecimal_readback (n : Nat) :
    Nat.ofDigits 10 (((natDecimal n).map chrDigit).reverse) = n := by
  by_cases h : n = 0
  · subst h
    simp [natDecimal, chrDigit, Nat.ofDigits]
  · rw [natDecimal, if_neg h, List.map_reverse, List.reverse_reverse, List.map_map]
    have hmap : (Nat.digits 10 n).map (chrDigit ∘ digitChr) = Nat.digits 10 n := by
      rw [List.map_congr_left, List.map_id]
      intro d hd
      exact chrDigit_digitChr d (Nat.digits_lt_base (by norm_num) hd)
    rw [hmap, Nat.ofDigits_digits]

theorem userCacheKey_eq (uid : Nat) :
    userCacheKey uid = "user:" ++ String.mk (natDecimal uid) := by
  show String.mk (substPercentD (natDecimal uid) UserCacheKey.data) =
    "user:" ++ String.mk (natDecimal uid)
  have hdata : UserCacheKey.data = ['u', 's', 'e', 'r', ':', '%', 'd'] := rfl
  rw [hdata]
  show String.mk ('u' :: 's' :: 'e' :: 'r' :: ':' :: (natDecimal uid ++ [])) =
    "user:" ++ String.mk (natDecimal uid)
  rw [List.append_nil]
  rfl

theorem keyToId_userCacheKey (uid : Nat) : keyToId (userCacheKey uid) = uid := by
  rw [userCacheKey_eq]
  show Nat.ofDigits 10 (((natDecimal uid).map chrDigit).reverse) = uid
  exact natDecimal_readback uid

/-- C1: the claim states that the asynchronous cache-population task launched
by GetUserByID does not use the literal request context but a derived,
non-cancelled background context. The code contradicts this: for every
request context — including the concrete cancelled one `reqCtx` — the
population `Set` command carries exactly the literal request context. -/
theorem getUserByID_populate_uses_request_ctx :
    (∀ c : Ctx, (GetUserByID demoCacheNil demoDbFound c 1).2 =
        [Effect.redisSet c (userCacheKey 1) (encodeUser demoUser) UserCacheTTL]) ∧
    reqCtx.cancelled = true :=
  ⟨fun _ => rfl, rfl⟩

/-- C3: when the cache lookup fails with an error other than redis.Nil, or
returns a payload that does not unmarshal, GetUserByID returns exactly the
backing store's outcome — no cache or deserialization error crosses the
public boundary. -/
theorem getUserByID_absorbs_cache_failures
    (redisGet : Ctx → String → CacheGetResult) (dbFirst : Ctx → Nat → DbResult)
    (ctx : Ctx) (uid : Nat)
    (h : (∃ e, e ≠ GoErr.redisNil ∧
            redisGet ctx (userCacheKey uid) = CacheGetResult.gerr e) ∨
         (∃ payload, redisGet ctx (userCacheKey uid) = CacheGetResult.ok payload ∧
            decodeUser payload = none)) :
    (GetUserByID redisGet dbFirst ctx uid).1 =
      (match dbFirst ctx uid with
       | .found u => GetRes.ok u
       | .dbErr e => GetRes.err e) := by
  rcases h with ⟨e, _, hg⟩ | ⟨p, hg, hd⟩
  · cases hdb : dbFirst ctx uid <;> simp [GetUserByID, hg, hdb]
  · cases hdb : dbFirst ctx uid <;> simp [GetUserByID, hg, hd, hdb]

/-- Witness for C3: a concrete cache outage is absorbed and the entity comes
from the backing store. -/
theorem getUserByID_absorbs_cache_failures_w :
    ((∃ e, e ≠ GoErr.redisNil ∧
        demoCacheBoom reqCtx (userCacheKey 1) = CacheGetResult.gerr e) ∨
      (∃ payload, demoCacheBoom reqCtx (userCacheKey 1) = CacheGetResult.ok payload ∧
        decodeUser payload = none)) ∧
    (GetUserByID demoCacheBoom demoDbFound reqCtx 1).1 = GetRes.ok demoUser := by
  refine ⟨Or.inl ⟨GoErr.other "connection refused", by decide, rfl⟩, ?_⟩
  exact getUserByID_absorbs_cache_failures demoCacheBoom demoDbFound reqCtx 1
    (Or.inl ⟨GoErr.other "connection refused", by decide, rfl⟩)

/-- C6: when the cache yields no entity and the backing store reports
record-not-found, GetUserByID returns that failure and issues no mutating
command at all — in particular no cache `Set` for the derived key. -/
theorem getUserByID_notFound_no_populate
    (redisGet : Ctx → String → CacheGetResult) (dbFirst : Ctx → Nat → DbResult)
    (ctx : Ctx) (uid : Nat)
    (hc : cacheNoEntity (redisGet ctx (userCacheKey uid)))
    (hdb : dbFirst ctx uid = DbResult.dbErr GoErr.recordNotFound) :
    GetUserByID redisGet dbFirst ctx uid = (GetRes.err GoErr.recordNotFound, []) := by
  cases hg : redisGet ctx (userCacheKey uid) with
  | ok p =>
      rw [hg] at hc
      have hcd : decodeUser p = none := hc
      simp [GetUserByID, hg, hcd, hdb]
  | gerr e => simp [GetUserByID, hg, hdb]

/-- Witness for C6: a concrete miss plus a not-found store outcome. -/
theorem getUserByID_notFound_no_populate_w :
    cacheNoEntity (demoCacheNil reqCtx (userCacheKey 3)) ∧
    GetUserByID demoCacheNil demoDbNotFound reqCtx 3 =
      (GetRes.err GoErr.recordNotFound, []) :=
  ⟨True.intro,
    getUserByID_notFound_no_populate demoCacheNil demoDbNotFound reqCtx 3 True.intro rfl⟩

/-- C8: cache-key derivation is a pure function of the identifier with the
shape `"user:"` followed by the decimal rendering of the identifier (reading
the digit characters after the 5-character prefix back in base 10 recovers
the identifier), and it is injective. -/
theorem userCacheKey_pure_injective :
    (∀ uid : Nat, userCacheKey uid = "user:" ++ String.mk (natDecimal uid)) ∧
    (∀ uid : Nat,
      Nat.ofDigits 10 ((((userCacheKey uid).data.drop 5).map chrDigit).reverse) = uid) ∧
    Function.Injective userCacheKey := by
  refine ⟨userCacheKey_eq, keyToId_userCacheKey, ?_⟩
  intro a b hab
  have := congrArg keyToId hab
  rwa [keyToId_userCacheKey, keyToId_userCacheKey] at this

/-- Witness for C8 at concrete identifiers. -/
theorem userCacheKey_pure_injective_w :
    userCacheKey 42 = "user:" ++ String.mk (natDecimal 42) ∧ (42 : Nat) = 42 :=
  ⟨userCacheKey_pure_injective.1 42,
    userCacheKey_pure_injective.2.2 (rfl : userCacheKey 42 = userCacheKey 42)⟩

/-- C2: whenever a CreateUser or UpdateUser reaches the backing store and the
store operation succeeds, the function returns nil and the commands issued
are exactly the store write followed synchronously by the cache deletion of
the key derived from the entity's ID; swapping the deletion oracle for any
other (including an always-failing one) changes nothing observable, so a
failed invalidation cannot fail the write. -/
theorem write_invalidates_sync
    (firstByEmail : Ctx → String → Option User)
    (dbCreate : Ctx → User → Except GoErr User)
    (dbUpdates : Ctx → User → Option GoErr)
    (d1 d2 : Ctx → String → Option GoErr)
    (ctx : Ctx) (u stored : User) :
    (u.name ≠ "" → u.email ≠ "" → firstByEmail ctx u.email = none →
      dbCreate ctx u = Except.ok stored →
      CreateUser firstByEmail dbCreate d1 ctx u =
        (none, [Effect.dbCreate ctx u, Effect.redisDel ctx (userCacheKey stored.id)]) ∧
      CreateUser firstByEmail dbCreate d1 ctx u =
        CreateUser firstByEmail dbCreate d2 ctx u) ∧
    (u.id ≠ 0 → dbUpdates ctx u = none →
      UpdateUser dbUpdates d1 ctx u =
        (none, [Effect.dbUpdates ctx u, Effect.redisDel ctx (userCacheKey u.id)]) ∧
      UpdateUser dbUpdates d1 ctx u = UpdateUser dbUpdates d2 ctx u) := by
  constructor
  · intro hn he hf hc
    have hcond : ¬(u.name = "" ∨ u.email = "") := not_or.mpr ⟨hn, he⟩
    constructor <;> simp [CreateUser, hcond, hf, hc]
  · intro hid hu
    constructor <;> simp [UpdateUser, hid, hu]

/-- Witness for C2: concrete successful create and update, with a deletion
oracle that always fails, still return nil and issue the deletion. -/
theorem write_invalidates_sync_w :
    CreateUser demoFirstByEmailNone demoDbCreateOk demoDelFail reqCtx demoNewUser =
      (none, [Effect.dbCreate reqCtx demoNewUser, Effect.redisDel reqCtx (userCacheKey 5)]) ∧
    UpdateUser demoDbUpdatesOk demoDelFail reqCtx demoUpdUser =
      (none, [Effect.dbUpdates reqCtx demoUpdUser, Effect.redisDel reqCtx (userCacheKey 5)]) := by
  have hc := write_invalidates_sync demoFirstByEmailNone demoDbCreateOk demoDbUpdatesOk
    demoDelFail demoDelFail reqCtx demoNewUser demoStored
  have hu := write_invalidates_sync demoFirstByEmailNone demoDbCreateOk demoDbUpdatesOk
    demoDelFail demoDelFail reqCtx demoUpdUser demoStored
  exact ⟨(hc.1 (by decide) (by decide) rfl rfl).1, (hu.2 (by decide) rfl).1⟩

/-- C10: a CreateUser call with an empty name, an empty email, or an email
already present in the backing store returns a non-nil error and issues no
mutating command at all — no insert and no cache deletion. -/
theorem createUser_rejects_invalid
    (firstByEmail : Ctx → String → Option User)
    (dbCreate : Ctx → User → Except GoErr User)
    (redisDel : Ctx → String → Option GoErr)
    (ctx : Ctx) (u : User)
    (h : u.name = "" ∨ u.email = "" ∨ ∃ v, firstByEmail ctx u.email = some v) :
    (CreateUser firstByEmail dbCreate redisDel ctx u).1 ≠ none ∧
    (CreateUser firstByEmail dbCreate redisDel ctx u).2 = [] := by
  by_cases hcond : u.name = "" ∨ u.email = ""
  · simp [CreateUser, hcond]
  · rcases h with h | h | ⟨v, hv⟩
    · exact absurd (Or.inl h) hcond
    · exact absurd (Or.inr h) hcond
    · simp [CreateUser, hcond, hv]

/-- Witness for C10: an empty name is rejected with no effects. -/
theorem createUser_rejects_invalid_w :
    (CreateUser demoFirstByEmailNone demoDbCreateOk demoDelFail reqCtx demoNoName).1 ≠ none ∧
    (CreateUser demoFirstByEmailNone demoDbCreateOk demoDelFail reqCtx demoNoName).2 = [] :=
  createUser_rejects_invalid demoFirstByEmailNone demoDbCreateOk demoDelFail reqCtx
    demoNoName (Or.inl rfl)

/-- C9: running UpdateUser against a table state writes only the selected
columns (name, email, age, status, updated_at): every row of the resulting
table keeps its prior primary key, creation timestamp and soft-delete
marker — in particular CreatedAt is unchanged. -/
theorem updateUser_preserves_frame
    (now : Nat) (ctx : Ctx) (db : List User) (user : User) (i : Nat)
    (h : user.id ≠ 0) :
    (((UpdateUserDb now ctx db user).2.1)[i]?).map
        (fun r => (r.id, r.createdAt, r.deletedAt)) =
      (db[i]?).map (fun r => (r.id, r.createdAt, r.deletedAt)) := by
  rw [UpdateUserDb, if_neg h]
  show ((dbApplyUpdates now db user)[i]?).map _ = _
  rw [dbApplyUpdates, List.getElem?_map]
  cases hdb : db[i]? with
  | none => rfl
  | some r =>
      by_cases hc : r.id = user.id ∧ r.deletedAt.valid = false
      · simp [hc, applyUserUpdate]
      · simp [hc]

/-- Witness for C9: a concrete update leaves id, CreatedAt and DeletedAt of
the stored row intact. -/
theorem updateUser_preserves_frame_w :
    demoUpdUser.id ≠ 0 ∧
    (((UpdateUserDb 999 reqCtx [demoStored] demoUpdUser).2.1)[0]?).map
        (fun r => (r.id, r.createdAt, r.deletedAt)) =
      (([demoStored] : List User)[0]?).map (fun r => (r.id, r.createdAt, r.deletedAt)) :=
  ⟨by decide, updateUser_preserves_frame 999 reqCtx [demoStored] demoUpdUser 0 (by decide)⟩

/-- C4: the wrapped function produced by TraceServiceFunc returns exactly the
outcome of the inner function evaluated on the derived child context and the
original argument — the wrapper never swallows, replaces, or alters the
result or the error. -/
theorem traceServiceFunc_transparent {T R : Type} (operationName : String)
    (fn : Ctx → T → Outcome R) (attrFunc : Option (Ctx → T → List KeyValue))
    (ctx : Ctx) (arg : T) :
    (TraceServiceFunc operationName fn attrFunc ctx arg).1 =
      fn (startCtx ctx operationName) arg := by
  unfold TraceServiceFunc
  cases h : fn (startCtx ctx operationName) arg <;> simp [h]

/-- C5: every invocation of a function wrapped by TraceServiceFunc emits
exactly one span start and exactly one span end, both for the wrapper's span,
whether the inner function returns successfully, returns an error, or
panics. -/
theorem traceServiceFunc_span_balanced {T R : Type} (operationName : String)
    (fn : Ctx → T → Outcome R) (attrFunc : Option (Ctx → T → List KeyValue))
    (ctx : Ctx) (arg : T) :
    ((TraceServiceFunc operationName fn attrFunc ctx arg).2.filter isSpanStart) =
      [SpanEvent.start operationName] ∧
    ((TraceServiceFunc operationName fn attrFunc ctx arg).2.filter isSpanStop) =
      [SpanEvent.stop operationName] := by
  unfold TraceServiceFunc
  cases attrFunc with
  | none =>
      cases h : fn (startCtx ctx operationName) arg <;>
        simp [h, isSpanStart, isSpanStop]
  | some g =>
      cases hA : g (startCtx ctx operationName) arg with
      | nil =>
          cases h : fn (startCtx ctx operationName) arg <;>
            simp [h, hA, isSpanStart, isSpanStop]
      | cons a as =>
          cases h : fn (startCtx ctx operationName) arg <;>
            simp [h, hA, isSpanStart, isSpanStop]

/-- C7: for every entity producible by the backing store (soft-delete marker
well-formed as the store scans it), unmarshalling the marshalled form
reconstructs the entity field-for-field. -/
theorem decode_encode_roundtrip (u : User) (h : storeReachable u) :
    decodeUser (encodeUser u) = some u := by
  obtain ⟨uid, created, updated, ⟨dtime, dvalid⟩, nm, em, ag, st⟩ := u
  cases dvalid with
  | false =>
      have ht : dtime = 0 := h rfl
      subst ht
      simp [decodeUser, encodeUser, jLookup, decodeUInt, decodeInt, decodeStr,
        decodeDeletedAt]
  | true =>
      simp [decodeUser, encodeUser, jLookup, decodeUInt, decodeInt, decodeStr,
        decodeDeletedAt]

/-- Witness for C7 at a concrete entity. -/
theorem decode_encode_roundtrip_w :
    storeReachable demoUser ∧ decodeUser (encodeUser demoUser) = some demoUser :=
  ⟨fun _ => rfl, decode_encode_roundtrip demoUser (fun _ => rfl)⟩
